import Mathlib

/-!
Verification development for the ripple-rest transaction pipeline.

Shallow embedding of:
- `src/api/transact.js`: `signIfSecretExists`, `formatResponse`,
  `prepareAndOptionallySign`, `prepareAndSignAndSubmit`, `transact`;
- `src/unnamed/part_000` (test harness): `LEDGER_OFFSET`, `closeLedgers`,
  `loadArguments`, `withDeterministicPRNG`;
- the Pending Tracker state machine, the Validator and the Signer, which are
  external collaborators of the shown source (ripple-lib and
  `./lib/validate` are not part of the repository snapshot), modelled from
  the spec where indicated.
-/

/-! ## A small model of JavaScript values and objects -/

/-- A JavaScript value: booleans, strings, integers, `null`, `undefined`,
and objects represented as ordered association lists of own properties. -/
inductive JSVal where
  | vBool (b : Bool)
  | vStr (s : String)
  | vNum (n : Int)
  | vNull
  | vUndefined
  | vObj (fields : List (String × JSVal))

/-- A JavaScript object: ordered list of own (key, value) properties. -/
abbrev JSObj := List (String × JSVal)

/-- JavaScript truthiness: `false`, `""`, `0`, `null`, `undefined` are falsy;
every other value (including any object) is truthy. -/
def truthy : JSVal → Bool
  | .vBool b => b
  | .vStr s => !(s == "")
  | .vNum n => !(n == 0)
  | .vNull => false
  | .vUndefined => false
  | .vObj _ => true

/-- Strict equality against the boolean literal `false` (JS `=== false`). -/
def isFalseVal : JSVal → Bool
  | .vBool false => true
  | _ => false

/-- Property read `o[k]`: first matching own property, else `undefined`
(a missing key reads as `undefined` in JavaScript). -/
def jsGet (o : JSObj) (k : String) : JSVal :=
  match o.find? (fun p => p.1 == k) with
  | some p => p.2
  | none => .vUndefined

/-- Property read on a value: `v[k]` when `v` is an object, else `undefined`. -/
def jsGetV (v : JSVal) (k : String) : JSVal :=
  match v with
  | .vObj o => jsGet o k
  | _ => .vUndefined

/-- Whether the object has an own property named `k`. -/
def hasKey (o : JSObj) (k : String) : Bool :=
  o.any (fun p => p.1 == k)

/-- The list of own property keys, in order (JS `_.keys`). -/
def keysOf (o : JSObj) : List String :=
  o.map (fun p => p.1)

/-- No two own properties share a key (every real JS object satisfies this). -/
def NodupKeys (o : JSObj) : Prop :=
  (keysOf o).Nodup

/-- JS property write `o[k] = v`: overwrite an existing property in place,
otherwise append a new one (insertion order is preserved). -/
def setKey (o : JSObj) (k : String) (v : JSVal) : JSObj :=
  if o.any (fun p => p.1 == k) then
    o.map (fun p => if p.1 == k then (k, v) else p)
  else
    o ++ [(k, v)]

/-- lodash `_.assign(a, b)`: copy each own property of `b` onto `a`, in
order; later sources win on key collision. -/
def assignObj (a b : JSObj) : JSObj :=
  b.foldl (fun acc p => setKey acc p.1 p.2) a

/-- lodash `_.defaults(args, defaults)`: add each property of `defaults`
whose key is not yet present in `args`. -/
def jsDefaults (args defaults : JSObj) : JSObj :=
  defaults.foldl (fun acc p => if hasKey acc p.1 then acc else acc ++ [p]) args

/-! ## Embedding of `src/api/transact.js` -/

/-- The pipeline's error taxonomy (spec §7). -/
inductive TxError where
  | invalidAddress
  | invalidSecret
  | addressSecretMismatch
  | unrecognizedOption (ks : List String)
  | unsupportedTransactionType
  | networkUnavailable
  | submissionRejected
  | expired
deriving DecidableEq

/-- Observable interactions of the pipeline beyond validation: building the
transaction over the network connection (`createTxJSON` reads ledger state)
and submitting it (`transactions.submit`, which creates a pending entry). -/
inductive Effect where
  | effCreateTxJSON
  | effSubmit
deriving DecidableEq

/-- The collaborators `transact.js` imports: the validators from
`./lib/validate`, `createTxJSON` from `./transaction/utils`, `sign` from
`./transaction/sign` and `transactions.submit`. -/
structure Env where
  validateAddressAndMaybeSecret : JSVal → JSVal → Except TxError Unit
  validateAddressAndSecret : JSVal → JSVal → Except TxError Unit
  validateOptions : JSObj → Except TxError Unit
  createTxJSON : JSObj → JSObj → Except TxError JSObj
  sign : JSVal → JSVal → JSObj
  submit : JSObj → JSVal → JSObj → Except TxError JSObj

/-- From `src/api/transact.js` lines 10-13:
`signResponse = secret ? sign(prepared.tx_json, secret) : {};`
`return _.assign({}, prepared, signResponse);` -/
def signIfSecretExists (signFn : JSVal → JSVal → JSObj) (secret : JSVal)
    (prepared : JSObj) : JSObj :=
  let signResponse := if truthy secret then signFn (jsGet prepared "tx_json") secret else []
  assignObj (assignObj [] prepared) signResponse

/-- From `src/api/transact.js` lines 15-17:
`return _.assign({}, prepared, converter(prepared, {}));` -/
def formatResponse (converter : JSObj → JSVal → JSObj) (prepared : JSObj) : JSObj :=
  assignObj (assignObj [] prepared) (converter prepared (.vObj []))

/-- From `src/api/transact.js` lines 19-29: validate address (secret optional)
and options synchronously, then run the waterfall
`createTxJSON → signIfSecretExists → formatResponse`. Returns the result
together with the list of network-facing effects actually invoked. -/
def prepareAndOptionallySign (env : Env) (transaction : JSObj) (secret : JSVal)
    (options : JSObj) (converter : JSObj → JSVal → JSObj) :
    Except TxError JSObj × List Effect :=
  let address := jsGetV (jsGet transaction "tx_json") "Account"
  match env.validateAddressAndMaybeSecret address secret with
  | .error e => (.error e, [])
  | .ok _ =>
    match env.validateOptions options with
    | .error e => (.error e, [])
    | .ok _ =>
      match env.createTxJSON transaction options with
      | .error e => (.error e, [.effCreateTxJSON])
      | .ok prepared =>
        (.ok (formatResponse converter (signIfSecretExists env.sign secret prepared)),
         [.effCreateTxJSON])

/-- From `src/api/transact.js` lines 31-40: validate address with mandatory
secret and options synchronously, then run the waterfall
`transactions.submit → converter`. -/
def prepareAndSignAndSubmit (env : Env) (transaction : JSObj) (secret : JSVal)
    (options : JSObj) (converter : JSObj → JSVal → JSObj) :
    Except TxError JSObj × List Effect :=
  let address := jsGetV (jsGet transaction "tx_json") "Account"
  match env.validateAddressAndSecret address secret with
  | .error e => (.error e, [])
  | .ok _ =>
    match env.validateOptions options with
    | .error e => (.error e, [])
    | .ok _ =>
      match env.submit transaction secret options with
      | .error e => (.error e, [.effSubmit])
      | .ok res => (.ok (converter res .vUndefined), [.effSubmit])

/-- Which of the two pipelines `transact` dispatches to. -/
inductive Pipeline where
  | prepareOnly
  | fullSubmit
deriving DecidableEq

/-- From `src/api/transact.js` line 44: the dispatch test
`if (options.submit === false)` — strict equality against `false`. -/
def transactSelect (options : JSObj) : Pipeline :=
  if isFalseVal (jsGet options "submit") then .prepareOnly else .fullSubmit

/-- From `src/api/transact.js` lines 43-49: dispatch on `options.submit === false`. -/
def transact (env : Env) (transaction : JSObj) (secret : JSVal)
    (options : JSObj) (converter : JSObj → JSVal → JSObj) :
    Except TxError JSObj × List Effect :=
  match transactSelect options with
  | .prepareOnly => prepareAndOptionallySign env transaction secret options converter
  | .fullSubmit => prepareAndSignAndSubmit env transaction secret options converter

/-! ## Spec-modelled validators (`./lib/validate` is not in the repository
snapshot; only its call sites in `transact.js` are) -/

/-- Modelled from the spec: `validate.addressAndSecret` —
`validateAddressAndSecret(address, secret) → ok | fails(InvalidAddress |
InvalidSecret | AddressSecretMismatch)`; the address must be syntactically
valid, the secret is mandatory ("its absence is itself an error"), and a
present secret must cryptographically derive the address. The address
predicate and the derivation relation are parameters. -/
def specValidateAddressAndSecret (isValidAddress : JSVal → Bool)
    (derives : JSVal → JSVal → Bool) (address secret : JSVal) :
    Except TxError Unit :=
  if isValidAddress address = false then .error .invalidAddress
  else
    match secret with
    | .vUndefined => .error .invalidSecret
    | s => if derives s address then .ok () else .error .addressSecretMismatch

/-- Modelled from the spec: `validate.addressAndMaybeSecret` — same as the
mandatory form except that an absent secret is accepted ("secret optional"
mode used when signing is deferred). -/
def specValidateAddressAndMaybeSecret (isValidAddress : JSVal → Bool)
    (derives : JSVal → JSVal → Bool) (address secret : JSVal) :
    Except TxError Unit :=
  if isValidAddress address = false then .error .invalidAddress
  else
    match secret with
    | .vUndefined => .ok ()
    | s => if derives s address then .ok () else .error .addressSecretMismatch

/-- Modelled from the spec: `validate.options` — the complete set of option
keys must be a subset of a statically known default key set; any key
outside that set fails closed with `UnrecognizedOption` naming the
offending keys. -/
def specValidateOptions (defaults : JSObj) (options : JSObj) :
    Except TxError Unit :=
  let unrecognized := (keysOf options).filter (fun k => !(hasKey defaults k))
  if unrecognized.isEmpty then .ok () else .error (.unrecognizedOption unrecognized)

/-- An `Env` whose validators are the spec-modelled ones; builder, signer
and submitter remain parameters. -/
def mkSpecEnv (isValidAddress : JSVal → Bool) (derives : JSVal → JSVal → Bool)
    (defaults : JSObj) (createTx : JSObj → JSObj → Except TxError JSObj)
    (signFn : JSVal → JSVal → JSObj)
    (submitFn : JSObj → JSVal → JSObj → Except TxError JSObj) : Env where
  validateAddressAndMaybeSecret := specValidateAddressAndMaybeSecret isValidAddress derives
  validateAddressAndSecret := specValidateAddressAndSecret isValidAddress derives
  validateOptions := specValidateOptions defaults
  createTxJSON := createTx
  sign := signFn
  submit := submitFn

/-! ## Embedding of `src/unnamed/part_000` (test harness) -/

/-- From `src/unnamed/part_000` line 20: `var LEDGER_OFFSET = 3;` -/
def LEDGER_OFFSET : Nat := 3

/-- From `src/unnamed/part_000` lines 206-212: `loadArguments(args, defaults)` —
`unrecognizedArgs = _.difference(_.keys(args), _.keys(defaults))`; the
assertion fails naming the unrecognized keys when that difference is
nonempty, otherwise `_.defaults(args, defaults)` fills in the defaults.
The failed assertion is modelled as an error carrying the offending keys. -/
def loadArguments (args defaults : JSObj) : Except (List String) JSObj :=
  let unrecognizedArgs := (keysOf args).filter (fun k => !(hasKey defaults k))
  if unrecognizedArgs.isEmpty then .ok (jsDefaults args defaults)
  else .error unrecognizedArgs

/-! ## The Pending Tracker state machine

The tracker itself lives in ripple-lib (`_transactionManager._pending`),
outside the repository snapshot; it is modelled from the spec (§3, §4.4):
entries keyed by (account, sequence) with status pending/succeeded/expired,
created on submission with `LastLedgerSequence = currentLedger +
LEDGER_OFFSET`, confirmed on a matching confirmation, expired on a ledger
close whose index exceeds `LastLedgerSequence`. Terminal statuses never
change again; a late confirmation does not resurrect an expired entry. -/

/-- Status of a pending entry (spec §3). -/
inductive EntryStatus where
  | pending
  | succeeded
  | expired
deriving DecidableEq

/-- Modelled from the spec: a PendingEntry —
{account, sequence, LastLedgerSequence, submittedAtLedger, status}. -/
structure PendingEntry where
  account : String
  sequence : Nat
  lastLedgerSequence : Nat
  submittedAtLedger : Nat
  status : EntryStatus
deriving DecidableEq

/-- Events the tracker consumes: a submission, a ledger close, a
confirmation notification. -/
inductive TrackerEvent where
  | submit (account : String) (sequence : Nat)
  | ledgerClose (ledgerIndex : Nat)
  | confirm (account : String) (sequence : Nat)
deriving DecidableEq

/-- Modelled from the spec: the tracker's state — the current ledger index
and the keyed entries (terminal entries are kept with their terminal
status; "removed from the active set" means no longer pending). -/
structure TrackerState where
  currentLedger : Nat
  entries : List PendingEntry
deriving DecidableEq

/-- Modelled from the spec: a confirmation matching (account, sequence)
moves a pending entry to succeeded; a terminal entry is left unchanged
(a late confirmation is an anomaly, not a resurrection). -/
def applyConfirm (acct : String) (seq : Nat) (e : PendingEntry) : PendingEntry :=
  if e.account = acct ∧ e.sequence = seq ∧ e.status = .pending then
    { e with status := .succeeded }
  else e

/-- Modelled from the spec: on a ledger close, every pending entry with
`LastLedgerSequence < ledgerIndex` expires; terminal entries are unchanged. -/
def applyClose (ledgerIndex : Nat) (e : PendingEntry) : PendingEntry :=
  if e.status = .pending ∧ e.lastLedgerSequence < ledgerIndex then
    { e with status := .expired }
  else e

/-- Modelled from the spec: one tracker transition. Submission creates a
pending entry at the current ledger with
`LastLedgerSequence = currentLedger + LEDGER_OFFSET` (spec §4.2); a ledger
close advances the current ledger and expires out-of-window entries;
a confirmation settles the matching entry. -/
def step (s : TrackerState) : TrackerEvent → TrackerState
  | .submit acct seq =>
    { s with entries := s.entries ++
        [⟨acct, seq, s.currentLedger + LEDGER_OFFSET, s.currentLedger, .pending⟩] }
  | .ledgerClose idx =>
    { currentLedger := max s.currentLedger idx,
      entries := s.entries.map (applyClose idx) }
  | .confirm acct seq =>
    { s with entries := s.entries.map (applyConfirm acct seq) }

/-- Run the tracker over a list of events. -/
def run (events : List TrackerEvent) (s : TrackerState) : TrackerState :=
  events.foldl step s

/-- The tracker's initial state at ledger `L`: no entries. -/
def initState (L : Nat) : TrackerState :=
  ⟨L, []⟩

/-- A state is reachable when some event trace from some initial state
produces it. -/
def Reachable (s : TrackerState) : Prop :=
  ∃ L events, s = run events (initState L)

/-- The terminal outcome a waiter on an entry observes: an expiry failure
for an expired entry, success for a succeeded one, nothing while pending. -/
inductive Outcome where
  | success
  | expiredFailure
deriving DecidableEq

/-- Modelled from the spec: the pipeline result surfaced for an entry. -/
def waiterResult (e : PendingEntry) : Option Outcome :=
  match e.status with
  | .pending => none
  | .succeeded => some .success
  | .expired => some .expiredFailure

/-- From `src/unnamed/part_000` lines 218-222: `closeLedgers(conn)` sends
`LEDGER_OFFSET + 2` ledger-close events with indices `base+1 ...
base+LEDGER_OFFSET+2` (the fixture's base ledger is 0; `base` generalizes
it to a submission at ledger `base`). -/
def closeLedgers (base : Nat) : List TrackerEvent :=
  (List.range (LEDGER_OFFSET + 2)).map (fun i => .ledgerClose (base + i + 1))

/-! ## The Signer and the entropy source

`sign` (from `./transaction/sign`) and `PRNGMock` are outside the
repository snapshot; `withDeterministicPRNG` (part_000 lines 22-29) is in
it. The global `ripple.sjcl.random` is modelled as mutable state threaded
explicitly; the signer draws entropy from it. -/

/-- The global entropy source: either the real stateful PRNG (whose output
depends on, and advances, an internal state), or the test harness's
deterministic mock. -/
inductive RandSource where
  | real (state : Nat)
  | mock
deriving DecidableEq

/-- Draw one random word. The real PRNG returns a state-dependent word and
advances its state (a linear congruential step stands in for sjcl's
generator); the mock — modelled from the spec: `PRNGMock`, a deterministic
entropy source — returns a fixed word and does not depend on invocation
history. -/
def drawWord : RandSource → Nat × RandSource
  | .real s => (s % 4294967296, .real ((1664525 * s + 1013904223) % 4294967296))
  | .mock => (0, .mock)

/-- The mutable global `ripple.sjcl.random`. -/
structure SjclGlobal where
  random : RandSource
deriving DecidableEq

/-- Modelled from the spec: `sign(txJSON, secret) → SignedBlob` — a pure
function of the transaction, the secret and the entropy it draws from the
global PRNG. The concrete signature algorithm is a parameter `sigAlg`;
`signWithGlobal` draws one word of entropy and applies it. -/
def signWithGlobal (sigAlg : JSVal → JSVal → Nat → JSObj)
    (txJSON secret : JSVal) (g : SjclGlobal) : JSObj × SjclGlobal :=
  let (w, r) := drawWord g.random
  (sigAlg txJSON secret w, ⟨r⟩)

/-- From `src/unnamed/part_000` lines 22-29: save `ripple.sjcl.random`, install
a fresh `PRNGMock`, run the callback, and restore the saved source when it
completes. -/
def withDeterministicPRNG {α : Type} (callback : SjclGlobal → α × SjclGlobal)
    (g : SjclGlobal) : α × SjclGlobal :=
  let saved := g.random
  let (a, _) := callback ⟨.mock⟩
  (a, ⟨saved⟩)

/-- Two back-to-back invocations of the signer on the same transaction and
secret, with the global PRNG state threaded between them; returns both
signed blobs. -/
def signTwice (sigAlg : JSVal → JSVal → Nat → JSObj) (txJSON secret : JSVal)
    (g : SjclGlobal) : (JSObj × JSObj) × SjclGlobal :=
  let (b1, g1) := signWithGlobal sigAlg txJSON secret g
  let (b2, g2) := signWithGlobal sigAlg txJSON secret g1
  ((b1, b2), g2)

/-! ## Lemmas about JS objects -/

theorem jsGet_nil (k : String) : jsGet [] k = .vUndefined := rfl

theorem jsGet_cons (p : String × JSVal) (o : JSObj) (k : String) :
    jsGet (p :: o) k = if p.1 == k then p.2 else jsGet o k := by
  unfold jsGet
  cases h : p.1 == k <;> simp [List.find?, h]

theorem hasKey_nil (k : String) : hasKey [] k = false := rfl

theorem hasKey_cons (p : String × JSVal) (o : JSObj) (k : String) :
    hasKey (p :: o) k = (p.1 == k || hasKey o k) := by
  simp [hasKey]

theorem mem_keysOf_iff (o : JSObj) (k : String) :
    k ∈ keysOf o ↔ hasKey o k = true := by
  induction o with
  | nil => simp [keysOf, hasKey]
  | cons p o ih =>
    simp [keysOf, hasKey]
    constructor
    · rintro (h | h)
      · exact Or.inl h.symm
      · exact Or.inr h
    · rintro (h | h)
      · exact Or.inl h.symm
      · exact Or.inr h

theorem jsGet_of_hasKey_false (o : JSObj) (k : String)
    (h : hasKey o k = false) : jsGet o k = .vUndefined := by
  induction o with
  | nil => rfl
  | cons p o ih =>
    rw [hasKey_cons] at h
    rcases Bool.or_eq_false_iff.mp h with ⟨h1, h2⟩
    rw [jsGet_cons, if_neg (by simp [h1]), ih h2]

theorem jsGet_overwrite_of_any (o : JSObj) (k : String) (v : JSVal)
    (h : o.any (fun q => q.1 == k) = true) :
    jsGet (o.map fun q => if q.1 == k then (k, v) else q) k = v := by
  induction o with
  | nil => simp at h
  | cons p o ih =>
    rw [List.any_cons] at h
    cases h1 : p.1 == k with
    | true =>
      simp only [List.map_cons, h1, if_true]
      rw [jsGet_cons, if_pos (beq_self_eq_true k)]
    | false =>
      rw [h1, Bool.false_or] at h
      simp only [List.map_cons, h1, if_false]
      rw [jsGet_cons, if_neg (by simp [h1]), ih h]

theorem jsGet_overwrite_of_ne (o : JSObj) (k k' : String) (v : JSVal)
    (h : k ≠ k') :
    jsGet (o.map fun q => if q.1 == k then (k, v) else q) k' = jsGet o k' := by
  induction o with
  | nil => rfl
  | cons p o ih =>
    rw [List.map_cons, jsGet_cons, jsGet_cons]
    cases h1 : p.1 == k with
    | true =>
      have hpk : p.1 = k := by simpa using h1
      rw [if_pos (show ((true : Bool) = true) from rfl),
        if_neg (show ¬(((k, v).1 == k') = true) from by simp [h]),
        if_neg (show ¬((p.1 == k') = true) from by simp [hpk, h]), ih]
    | false =>
      rw [if_neg (show ¬((false : Bool) = true) from by simp), ih]

theorem jsGet_append_single_self (o : JSObj) (k : String) (v : JSVal)
    (h : o.any (fun q => q.1 == k) = false) :
    jsGet (o ++ [(k, v)]) k = v := by
  induction o with
  | nil => rw [List.nil_append, jsGet_cons, if_pos (beq_self_eq_true k)]
  | cons p o ih =>
    rw [List.any_cons, Bool.or_eq_false_iff] at h
    rw [List.cons_append, jsGet_cons, if_neg (by simp [h.1]), ih h.2]

theorem jsGet_append_single_ne (o : JSObj) (k k' : String) (v : JSVal)
    (h : k ≠ k') :
    jsGet (o ++ [(k, v)]) k' = jsGet o k' := by
  induction o with
  | nil =>
    rw [List.nil_append, jsGet_cons, if_neg (by simp [h]), jsGet_nil]
  | cons p o ih =>
    rw [List.cons_append, jsGet_cons, jsGet_cons, ih]

theorem jsGet_setKey_self (o : JSObj) (k : String) (v : JSVal) :
    jsGet (setKey o k v) k = v := by
  unfold setKey
  cases h : o.any (fun q => q.1 == k) with
  | true => rw [if_pos rfl]; exact jsGet_overwrite_of_any o k v h
  | false => rw [if_neg (by simp)]; exact jsGet_append_single_self o k v h

theorem jsGet_setKey_ne (o : JSObj) (k k' : String) (v : JSVal)
    (h : k ≠ k') : jsGet (setKey o k v) k' = jsGet o k' := by
  unfold setKey
  cases ho : o.any (fun q => q.1 == k) with
  | true => rw [if_pos rfl]; exact jsGet_overwrite_of_ne o k k' v h
  | false => rw [if_neg (by simp)]; exact jsGet_append_single_ne o k k' v h

theorem keysOf_overwrite (o : JSObj) (k : String) (v : JSVal) :
    keysOf (o.map fun q => if q.1 == k then (k, v) else q) = keysOf o := by
  induction o with
  | nil => rfl
  | cons p o ih =>
    cases h1 : p.1 == k with
    | true =>
      have hpk : p.1 = k := by simpa using h1
      simp only [List.map_cons, h1, if_true, keysOf, List.map_cons] at *
      rw [hpk]
      exact congrArg _ ih
    | false =>
      simp only [List.map_cons, h1, if_false, keysOf, List.map_cons] at *
      exact congrArg _ ih

theorem hasKey_eq_keysOf (o : JSObj) (k : String) :
    hasKey o k = (keysOf o).any (fun s => s == k) := by
  induction o with
  | nil => rfl
  | cons p o ih => simp [hasKey, keysOf] at *; rw [ih]

theorem hasKey_setKey (o : JSObj) (k k' : String) (v : JSVal) :
    hasKey (setKey o k v) k' = (hasKey o k' || (k == k')) := by
  unfold setKey
  cases ho : o.any (fun q => q.1 == k) with
  | true =>
    rw [if_pos rfl, hasKey_eq_keysOf, keysOf_overwrite, ← hasKey_eq_keysOf]
    by_cases h : k = k'
    · subst h
      have : hasKey o k = true := by simpa [hasKey] using ho
      simp [this]
    · simp [h]
  | false =>
    rw [if_neg (by simp)]
    simp [hasKey, List.any_append]

theorem hasKey_assignObj (a b : JSObj) (k : String) :
    hasKey (assignObj a b) k = (hasKey a k || hasKey b k) := by
  induction b generalizing a with
  | nil => simp [assignObj, hasKey]
  | cons p b ih =>
    simp only [assignObj, List.foldl_cons] at *
    rw [ih, hasKey_setKey, hasKey_cons]
    cases hasKey a k <;> cases (p.1 == k) <;> cases hasKey b k <;> rfl

theorem jsGet_assignObj (a b : JSObj) (hb : NodupKeys b) (k : String) :
    jsGet (assignObj a b) k =
      if hasKey b k then jsGet b k else jsGet a k := by
  induction b generalizing a with
  | nil => simp [assignObj, hasKey]
  | cons p b ih =>
    obtain ⟨k0, v0⟩ := p
    have hnd : NodupKeys b ∧ k0 ∉ keysOf b := by
      rw [NodupKeys, keysOf, List.map_cons, List.nodup_cons] at hb
      exact ⟨hb.2, hb.1⟩
    simp only [assignObj, List.foldl_cons] at *
    rw [ih _ hnd.1]
    by_cases h : k0 = k
    · subst h
      have hb0 : hasKey b k0 = false := by
        cases h0 : hasKey b k0
        · rfl
        · exact absurd ((mem_keysOf_iff b k0).mpr h0) hnd.2
      rw [hb0]
      simp only [if_false, Bool.false_eq_true]
      rw [jsGet_setKey_self, hasKey_cons]
      simp [jsGet_cons]
    · rw [hasKey_cons, jsGet_cons]
      cases hbk : hasKey b k <;>
        simp [hbk, h, jsGet_setKey_ne a k0 k v0 h]

theorem jsGet_assignObj_nil_copy (a : JSObj) (ha : NodupKeys a) (k : String) :
    jsGet (assignObj [] a) k = jsGet a k := by
  rw [jsGet_assignObj [] a ha k]
  cases h : hasKey a k
  · simp only [Bool.false_eq_true, if_false]
    rw [jsGet_nil, jsGet_of_hasKey_false a k h]
  · simp

/-! ## Lemmas about the Pending Tracker -/

/-- The tracker's per-entry invariant: a pending entry sits inside its
validity window, and an expired entry is strictly past it. -/
def TrackerInv (s : TrackerState) : Prop :=
  ∀ e ∈ s.entries,
    (e.status = .pending →
      e.submittedAtLedger ≤ s.currentLedger ∧
        s.currentLedger ≤ e.lastLedgerSequence)
    ∧ (e.status = .expired → e.lastLedgerSequence < s.currentLedger)

theorem trackerInv_init (L : Nat) : TrackerInv (initState L) := by
  intro e he
  exact absurd he (List.not_mem_nil e)

theorem trackerInv_step (s : TrackerState) (ev : TrackerEvent)
    (h : TrackerInv s) : TrackerInv (step s ev) := by
  cases ev with
  | submit acct seq =>
    intro e he
    simp only [step, List.mem_append, List.mem_singleton] at he
    rcases he with he | he
    · exact h e he
    · subst he
      constructor
      · intro _
        exact ⟨le_refl _, Nat.le_add_right _ _⟩
      · intro hx
        nomatch hx
  | ledgerClose idx =>
    intro e he
    simp only [step, List.mem_map] at he
    obtain ⟨e0, he0, rfl⟩ := he
    have h0 := h e0 he0
    unfold applyClose
    by_cases hc : e0.status = .pending ∧ e0.lastLedgerSequence < idx
    · rw [if_pos hc]
      refine ⟨fun hp => ?_, fun _ => lt_of_lt_of_le hc.2 (le_max_right _ _)⟩
      nomatch hp
    · rw [if_neg hc]
      refine ⟨fun hp => ?_, fun hx => lt_of_lt_of_le (h0.2 hx) (le_max_left _ _)⟩
      have hw := h0.1 hp
      have hni : ¬ e0.lastLedgerSequence < idx := fun hlt => hc ⟨hp, hlt⟩
      exact ⟨le_trans hw.1 (le_max_left _ _),
        max_le hw.2 (Nat.le_of_not_lt hni)⟩
  | confirm acct seq =>
    intro e he
    simp only [step, List.mem_map] at he
    obtain ⟨e0, he0, rfl⟩ := he
    have h0 := h e0 he0
    unfold applyConfirm
    by_cases hc : e0.account = acct ∧ e0.sequence = seq ∧ e0.status = .pending
    · rw [if_pos hc]
      constructor
      · intro hp
        nomatch hp
      · intro hx
        nomatch hx
    · rw [if_neg hc]
      exact h0

theorem trackerInv_run (evs : List TrackerEvent) (s : TrackerState)
    (h : TrackerInv s) : TrackerInv (run evs s) := by
  induction evs generalizing s with
  | nil => exact h
  | cons ev evs ih => exact ih _ (trackerInv_step s ev h)

theorem trackerInv_reachable (s : TrackerState) (h : Reachable s) :
    TrackerInv s := by
  obtain ⟨L, evs, rfl⟩ := h
  exact trackerInv_run evs _ (trackerInv_init L)

/-- One tracker step never changes an expired entry: it stays at the same
position with status expired (a late confirmation included). -/
theorem expired_stays_step (s : TrackerState) (ev : TrackerEvent) (i : Nat)
    (e : PendingEntry) (h : s.entries[i]? = some e)
    (hx : e.status = .expired) :
    ∃ e', (step s ev).entries[i]? = some e' ∧ e'.status = .expired := by
  cases ev with
  | submit acct seq =>
    refine ⟨e, ?_, hx⟩
    have hi : i < s.entries.length := (List.getElem?_eq_some_iff.mp h).1
    simp only [step]
    rw [List.getElem?_append_left hi]
    exact h
  | ledgerClose idx =>
    refine ⟨applyClose idx e, ?_, ?_⟩
    · simp only [step, List.getElem?_map, h, Option.map_some']
    · unfold applyClose
      rw [if_neg]
      · exact hx
      · rintro ⟨hp, -⟩
        rw [hx] at hp
        nomatch hp
  | confirm acct seq =>
    refine ⟨applyConfirm acct seq e, ?_, ?_⟩
    · simp only [step, List.getElem?_map, h, Option.map_some']
    · unfold applyConfirm
      rw [if_neg]
      · exact hx
      · rintro ⟨-, -, hp⟩
        rw [hx] at hp
        nomatch hp

/-- Expired entries are terminal under any trace of further events. -/
theorem expired_stays_run (evs : List TrackerEvent) (s : TrackerState)
    (i : Nat) (e : PendingEntry) (h : s.entries[i]? = some e)
    (hx : e.status = .expired) :
    ∃ e', (run evs s).entries[i]? = some e' ∧ e'.status = .expired := by
  induction evs generalizing s e with
  | nil => exact ⟨e, h, hx⟩
  | cons ev evs ih =>
    obtain ⟨e', h', hx'⟩ := expired_stays_step s ev i e h hx
    exact ih _ _ h' hx'

/-! ## Claim theorems -/

theorem isFalseVal_eq_true_iff (v : JSVal) :
    isFalseVal v = true ↔ v = .vBool false := by
  cases v with
  | vBool b => cases b <;> simp [isFalseVal]
  | vStr s => simp [isFalseVal]
  | vNum n => simp [isFalseVal]
  | vNull => simp [isFalseVal]
  | vUndefined => simp [isFalseVal]
  | vObj o => simp [isFalseVal]

/-- C1: `transact` selects the prepare-only pipeline exactly when
`options.submit` is strictly equal to boolean `false`; any other value —
`true`, `undefined`, an absent key, or any other falsy value — selects the
full submission pipeline: the test is exact equality against `false`, not
truthiness. -/
theorem C1_transact_dispatch (options : JSObj) :
    (transactSelect options = .prepareOnly ↔
      jsGet options "submit" = .vBool false)
    ∧ (hasKey options "submit" = false → transactSelect options = .fullSubmit)
    ∧ (∀ v : JSVal, truthy v = false → v ≠ .vBool false →
        transactSelect (setKey options "submit" v) = .fullSubmit) := by
  refine ⟨?_, ?_, ?_⟩
  · unfold transactSelect
    cases hv : isFalseVal (jsGet options "submit") with
    | true =>
      rw [if_pos rfl]
      exact iff_of_true rfl ((isFalseVal_eq_true_iff _).mp hv)
    | false =>
      rw [if_neg (by simp)]
      constructor
      · intro h
        nomatch h
      · intro h
        rw [h] at hv
        nomatch hv
  · intro h
    unfold transactSelect
    rw [jsGet_of_hasKey_false options "submit" h]
    rfl
  · intro v _ hne
    unfold transactSelect
    rw [jsGet_setKey_self]
    cases hv : isFalseVal v with
    | true => exact absurd ((isFalseVal_eq_true_iff v).mp hv) hne
    | false => rw [if_neg (by simp)]

theorem C1_transact_dispatch_witness :
    transactSelect [("submit", JSVal.vBool false)] = .prepareOnly
    ∧ transactSelect [] = .fullSubmit
    ∧ transactSelect (setKey [] "submit" (.vStr "")) = .fullSubmit :=
  ⟨(C1_transact_dispatch [("submit", .vBool false)]).1.mpr rfl,
   (C1_transact_dispatch []).2.1 rfl,
   (C1_transact_dispatch []).2.2 (.vStr "") rfl nofun⟩

/-- C10: in the prepare-only pipeline, signing is skipped for every falsy
secret — the empty string, `null`, `0`, … behave exactly like an absent
secret: `signIfSecretExists` returns a copy of the prepared object
(every key reads the same, and no `tx_blob` or `hash` key appears that was
not already there), without calling the signer. -/
theorem C10_signIfSecretExists_falsy (signFn : JSVal → JSVal → JSObj)
    (secret : JSVal) (prepared : JSObj)
    (hf : truthy secret = false) (hn : NodupKeys prepared) :
    signIfSecretExists signFn secret prepared
      = signIfSecretExists signFn .vUndefined prepared
    ∧ (∀ k, jsGet (signIfSecretExists signFn secret prepared) k
        = jsGet prepared k)
    ∧ hasKey (signIfSecretExists signFn secret prepared) "tx_blob"
        = hasKey prepared "tx_blob"
    ∧ hasKey (signIfSecretExists signFn secret prepared) "hash"
        = hasKey prepared "hash" := by
  have he : signIfSecretExists signFn secret prepared
      = assignObj [] prepared := by
    unfold signIfSecretExists
    rw [hf]
    rfl
  refine ⟨by rw [he]; rfl, ?_, ?_, ?_⟩
  · intro k
    rw [he]
    exact jsGet_assignObj_nil_copy prepared hn k
  · rw [he, hasKey_assignObj]
    rfl
  · rw [he, hasKey_assignObj]
    rfl

theorem C10_signIfSecretExists_falsy_witness :
    (truthy (.vStr "") = false ∧ NodupKeys [("tx_json", JSVal.vObj [])])
    ∧ signIfSecretExists (fun _ _ => [("tx_blob", JSVal.vStr "AB")])
        (.vStr "") [("tx_json", JSVal.vObj [])]
      = signIfSecretExists (fun _ _ => [("tx_blob", JSVal.vStr "AB")])
        .vUndefined [("tx_json", JSVal.vObj [])] :=
  ⟨⟨rfl, by simp [NodupKeys, keysOf]⟩,
   (C10_signIfSecretExists_falsy (fun _ _ => [("tx_blob", JSVal.vStr "AB")])
     (.vStr "") [("tx_json", JSVal.vObj [])] rfl
     (by simp [NodupKeys, keysOf])).1⟩

/-- C6: in the prepare-only mode with no secret supplied, the signing stage
is skipped and the pipeline continues with an empty signing result: the
object `signIfSecretExists` returns carries the prepared `tx_json`
unchanged (its `Account` is still the request's source account) and gains
no `tx_blob` or `hash` key. -/
theorem C6_prepare_only_unsigned (signFn : JSVal → JSVal → JSObj)
    (prepared : JSObj) (A : JSVal)
    (hn : NodupKeys prepared)
    (hA : jsGetV (jsGet prepared "tx_json") "Account" = A)
    (hb : hasKey prepared "tx_blob" = false)
    (hh : hasKey prepared "hash" = false) :
    jsGet (signIfSecretExists signFn .vUndefined prepared) "tx_json"
      = jsGet prepared "tx_json"
    ∧ jsGetV (jsGet (signIfSecretExists signFn .vUndefined prepared)
        "tx_json") "Account" = A
    ∧ hasKey (signIfSecretExists signFn .vUndefined prepared) "tx_blob" = false
    ∧ hasKey (signIfSecretExists signFn .vUndefined prepared) "hash" = false := by
  have he : signIfSecretExists signFn .vUndefined prepared
      = assignObj [] prepared := rfl
  have hjs : ∀ k, jsGet (signIfSecretExists signFn .vUndefined prepared) k
      = jsGet prepared k := by
    intro k
    rw [he]
    exact jsGet_assignObj_nil_copy prepared hn k
  refine ⟨hjs "tx_json", ?_, ?_, ?_⟩
  · rw [hjs "tx_json", hA]
  · rw [he, hasKey_assignObj]
    simpa [hasKey] using hb
  · rw [he, hasKey_assignObj]
    simpa [hasKey] using hh

theorem C6_prepare_only_unsigned_witness :
    jsGet (signIfSecretExists (fun _ _ => [("tx_blob", JSVal.vStr "AB")])
        .vUndefined [("tx_json", JSVal.vObj [("Account", JSVal.vStr "rA")])])
      "tx_json" = .vObj [("Account", JSVal.vStr "rA")]
    ∧ jsGetV (jsGet (signIfSecretExists (fun _ _ => [("tx_blob", JSVal.vStr "AB")])
        .vUndefined [("tx_json", JSVal.vObj [("Account", JSVal.vStr "rA")])])
        "tx_json") "Account" = .vStr "rA"
    ∧ hasKey (signIfSecretExists (fun _ _ => [("tx_blob", JSVal.vStr "AB")])
        .vUndefined [("tx_json", JSVal.vObj [("Account", JSVal.vStr "rA")])])
        "tx_blob" = false
    ∧ hasKey (signIfSecretExists (fun _ _ => [("tx_blob", JSVal.vStr "AB")])
        .vUndefined [("tx_json", JSVal.vObj [("Account", JSVal.vStr "rA")])])
        "hash" = false := by
  have h := C6_prepare_only_unsigned (fun _ _ => [("tx_blob", JSVal.vStr "AB")])
    [("tx_json", JSVal.vObj [("Account", JSVal.vStr "rA")])] (.vStr "rA")
    (by simp [NodupKeys, keysOf]) rfl rfl rfl
  exact ⟨h.1.trans rfl, h.2.1, h.2.2.1, h.2.2.2⟩

/-- C8: the formatted response is the merge of the pipeline result with the
converter's derived fields — on a key both carry, the converter's value
wins; a key only the pipeline result carries is preserved; the response's
key set is the union of the two. -/
theorem C8_formatResponse_merge (converter : JSObj → JSVal → JSObj)
    (prepared : JSObj) (hp : NodupKeys prepared)
    (hc : NodupKeys (converter prepared (.vObj []))) :
    (∀ k, hasKey (converter prepared (.vObj [])) k = true →
      jsGet (formatResponse converter prepared) k
        = jsGet (converter prepared (.vObj [])) k)
    ∧ (∀ k, hasKey (converter prepared (.vObj [])) k = false →
      jsGet (formatResponse converter prepared) k = jsGet prepared k)
    ∧ (∀ k, hasKey (formatResponse converter prepared) k
        = (hasKey prepared k || hasKey (converter prepared (.vObj [])) k)) := by
  unfold formatResponse
  refine ⟨?_, ?_, ?_⟩
  · intro k hk
    rw [jsGet_assignObj _ _ hc k, if_pos hk]
  · intro k hk
    rw [jsGet_assignObj _ _ hc k, hk]
    simp only [Bool.false_eq_true, if_false]
    exact jsGet_assignObj_nil_copy prepared hp k
  · intro k
    rw [hasKey_assignObj, hasKey_assignObj]
    rfl

theorem C8_formatResponse_merge_witness :
    jsGet (formatResponse (fun _ _ => [("a", JSVal.vNum 2), ("c", JSVal.vNum 3)])
        [("a", JSVal.vNum 1), ("b", JSVal.vStr "keep")]) "a" = .vNum 2
    ∧ jsGet (formatResponse (fun _ _ => [("a", JSVal.vNum 2), ("c", JSVal.vNum 3)])
        [("a", JSVal.vNum 1), ("b", JSVal.vStr "keep")]) "b" = .vStr "keep"
    ∧ hasKey (formatResponse (fun _ _ => [("a", JSVal.vNum 2), ("c", JSVal.vNum 3)])
        [("a", JSVal.vNum 1), ("b", JSVal.vStr "keep")]) "c" = true := by
  have h := C8_formatResponse_merge
    (fun _ _ => [("a", JSVal.vNum 2), ("c", JSVal.vNum 3)])
    [("a", JSVal.vNum 1), ("b", JSVal.vStr "keep")]
    (by simp [NodupKeys, keysOf]) (by simp [NodupKeys, keysOf])
  exact ⟨(h.1 "a" rfl).trans rfl, (h.2.1 "b" rfl).trans rfl,
    (h.2.2 "c").trans rfl⟩

/-- C7: `loadArguments` (the option-key check) succeeds exactly when every
key of `args` is among the keys of `defaults`; otherwise it fails closed,
and the failure carries exactly the offending keys (those of `args`
missing from `defaults`), never silently ignoring any. -/
theorem C7_loadArguments_unrecognized (args defaults : JSObj) :
    ((∃ r, loadArguments args defaults = .ok r) ↔
      ∀ k ∈ keysOf args, hasKey defaults k = true)
    ∧ (∀ ks, loadArguments args defaults = .error ks →
        ks ≠ [] ∧ ∀ k, k ∈ ks ↔ (k ∈ keysOf args ∧ hasKey defaults k = false)) := by
  have hmem : ∀ k, k ∈ (keysOf args).filter (fun k => !(hasKey defaults k)) ↔
      (k ∈ keysOf args ∧ hasKey defaults k = false) := by
    intro k
    rw [List.mem_filter]
    simp
  simp only [loadArguments]
  cases hu : ((keysOf args).filter (fun k => !(hasKey defaults k))).isEmpty with
  | true =>
    rw [if_pos rfl]
    have hnil := List.isEmpty_iff.mp hu
    constructor
    · constructor
      · intro _ k hk
        by_contra hfalse
        have hdf : hasKey defaults k = false := by
          cases h : hasKey defaults k
          · rfl
          · exact absurd h hfalse
        have hkin : k ∈ (keysOf args).filter (fun k => !(hasKey defaults k)) :=
          (hmem k).mpr ⟨hk, hdf⟩
        rw [hnil] at hkin
        exact absurd hkin (List.not_mem_nil k)
      · intro _
        exact ⟨_, rfl⟩
    · intro ks hks
      nomatch hks
  | false =>
    rw [if_neg (by simp)]
    have hne : (keysOf args).filter (fun k => !(hasKey defaults k)) ≠ [] :=
      List.isEmpty_eq_false.mp hu
    constructor
    · constructor
      · rintro ⟨r, hr⟩
        nomatch hr
      · intro hall
        exfalso
        apply hne
        rw [List.filter_eq_nil_iff]
        intro k hk
        simp [hall k hk]
    · intro ks hks
      have hks2 : (keysOf args).filter (fun k => !(hasKey defaults k)) = ks := by
        injection hks
      rw [← hks2]
      exact ⟨hne, hmem⟩

theorem C7_loadArguments_unrecognized_witness :
    (∃ r, loadArguments [("submit", JSVal.vBool true)]
        [("submit", JSVal.vUndefined), ("validated", JSVal.vBool false)] = .ok r)
    ∧ (loadArguments [("submitt", JSVal.vBool true)]
        [("submit", JSVal.vUndefined)] = .error ["submitt"] →
      ["submitt"] ≠ [] ∧ ∀ k, k ∈ ["submitt"] ↔
        (k ∈ keysOf [("submitt", JSVal.vBool true)]
          ∧ hasKey [("submit", JSVal.vUndefined)] k = false)) :=
  ⟨(C7_loadArguments_unrecognized [("submit", JSVal.vBool true)]
      [("submit", JSVal.vUndefined), ("validated", JSVal.vBool false)]).1.mpr
      (by intro k hk; simp [keysOf] at hk; simp [hk, hasKey]),
   (C7_loadArguments_unrecognized [("submitt", JSVal.vBool true)]
      [("submit", JSVal.vUndefined)]).2 ["submitt"]⟩

/-- C4: when validation fails — the address/secret validator or the option
validator of the selected pipeline returns an error — `transact` returns
that validation error with an empty effect trace: neither `createTxJSON`
nor `transactions.submit` is ever invoked, so no network interaction
happens and no pending entry is created. -/
theorem C4_validation_failure_no_network (env : Env) (transaction : JSObj)
    (secret : JSVal) (options : JSObj) (converter : JSObj → JSVal → JSObj)
    (h : (transactSelect options = .prepareOnly →
          (∃ e, env.validateAddressAndMaybeSecret
              (jsGetV (jsGet transaction "tx_json") "Account") secret = .error e)
          ∨ (∃ e, env.validateOptions options = .error e))
      ∧ (transactSelect options = .fullSubmit →
          (∃ e, env.validateAddressAndSecret
              (jsGetV (jsGet transaction "tx_json") "Account") secret = .error e)
          ∨ (∃ e, env.validateOptions options = .error e))) :
    (∃ e, (transact env transaction secret options converter).1 = .error e)
    ∧ (transact env transaction secret options converter).2 = [] := by
  cases hsel : transactSelect options with
  | prepareOnly =>
    rcases h.1 hsel with ⟨e, he⟩ | ⟨e, he⟩
    · refine ⟨⟨e, ?_⟩, ?_⟩ <;>
        simp [transact, hsel, prepareAndOptionallySign, he]
    · cases hva : env.validateAddressAndMaybeSecret
          (jsGetV (jsGet transaction "tx_json") "Account") secret with
      | error e2 =>
        refine ⟨⟨e2, ?_⟩, ?_⟩ <;>
          simp [transact, hsel, prepareAndOptionallySign, hva]
      | ok u =>
        refine ⟨⟨e, ?_⟩, ?_⟩ <;>
          simp [transact, hsel, prepareAndOptionallySign, hva, he]
  | fullSubmit =>
    rcases h.2 hsel with ⟨e, he⟩ | ⟨e, he⟩
    · refine ⟨⟨e, ?_⟩, ?_⟩ <;>
        simp [transact, hsel, prepareAndSignAndSubmit, he]
    · cases hva : env.validateAddressAndSecret
          (jsGetV (jsGet transaction "tx_json") "Account") secret with
      | error e2 =>
        refine ⟨⟨e2, ?_⟩, ?_⟩ <;>
          simp [transact, hsel, prepareAndSignAndSubmit, hva]
      | ok u =>
        refine ⟨⟨e, ?_⟩, ?_⟩ <;>
          simp [transact, hsel, prepareAndSignAndSubmit, hva, he]

theorem C4_validation_failure_no_network_witness :
    (∃ e, (transact (mkSpecEnv (fun _ => false) (fun _ _ => true) []
        (fun _ _ => .ok []) (fun _ _ => []) (fun _ _ _ => .ok []))
        [] .vNull [] (fun _ _ => [])).1 = .error e)
    ∧ (transact (mkSpecEnv (fun _ => false) (fun _ _ => true) []
        (fun _ _ => .ok []) (fun _ _ => []) (fun _ _ _ => .ok []))
        [] .vNull [] (fun _ _ => [])).2 = [] :=
  C4_validation_failure_no_network
    (mkSpecEnv (fun _ => false) (fun _ _ => true) []
      (fun _ _ => .ok []) (fun _ _ => []) (fun _ _ _ => .ok []))
    [] .vNull [] (fun _ _ => [])
    ⟨fun _ => Or.inl ⟨.invalidAddress, rfl⟩,
     fun _ => Or.inl ⟨.invalidAddress, rfl⟩⟩

/-- C5: the full-submission pipeline requires both a valid address and a
secret: with the spec-modelled validators, a request routed to it
(`options.submit` not strictly `false`) with the secret absent fails with
a validation error and performs no effect, while the prepare-only pipeline
accepts the same absent secret and proceeds to the builder. -/
theorem C5_full_mode_requires_secret (isValidAddress : JSVal → Bool)
    (derives : JSVal → JSVal → Bool) (defaults : JSObj)
    (createTx : JSObj → JSObj → Except TxError JSObj)
    (signFn : JSVal → JSVal → JSObj)
    (submitFn : JSObj → JSVal → JSObj → Except TxError JSObj)
    (transaction : JSObj) (options options2 : JSObj)
    (converter : JSObj → JSVal → JSObj)
    (hsel : transactSelect options = .fullSubmit)
    (hsel2 : transactSelect options2 = .prepareOnly)
    (hva : isValidAddress (jsGetV (jsGet transaction "tx_json") "Account") = true)
    (hvo : specValidateOptions defaults options2 = .ok ()) :
    ((transact (mkSpecEnv isValidAddress derives defaults createTx signFn submitFn)
        transaction .vUndefined options converter).1 = .error .invalidSecret
      ∧ (transact (mkSpecEnv isValidAddress derives defaults createTx signFn submitFn)
        transaction .vUndefined options converter).2 = [])
    ∧ (transact (mkSpecEnv isValidAddress derives defaults createTx signFn submitFn)
        transaction .vUndefined options2 converter).2 = [.effCreateTxJSON] := by
  constructor
  · constructor <;>
      simp [transact, hsel, prepareAndSignAndSubmit, mkSpecEnv,
        specValidateAddressAndSecret, hva]
  · cases hct : createTx transaction options2 with
    | error e =>
      simp [transact, hsel2, prepareAndOptionallySign, mkSpecEnv,
        specValidateAddressAndMaybeSecret, hva, hvo, hct]
    | ok r =>
      simp [transact, hsel2, prepareAndOptionallySign, mkSpecEnv,
        specValidateAddressAndMaybeSecret, hva, hvo, hct]

theorem C5_full_mode_requires_secret_witness :
    ((transact (mkSpecEnv (fun _ => true) (fun _ _ => true)
        [("submit", JSVal.vUndefined)] (fun _ _ => .ok [])
        (fun _ _ => []) (fun _ _ _ => .ok []))
        [] .vUndefined [] (fun _ _ => [])).1 = .error .invalidSecret
      ∧ (transact (mkSpecEnv (fun _ => true) (fun _ _ => true)
        [("submit", JSVal.vUndefined)] (fun _ _ => .ok [])
        (fun _ _ => []) (fun _ _ _ => .ok []))
        [] .vUndefined [] (fun _ _ => [])).2 = [])
    ∧ (transact (mkSpecEnv (fun _ => true) (fun _ _ => true)
        [("submit", JSVal.vUndefined)] (fun _ _ => .ok [])
        (fun _ _ => []) (fun _ _ _ => .ok []))
        [] .vUndefined [("submit", JSVal.vBool false)]
        (fun _ _ => [])).2 = [.effCreateTxJSON] :=
  C5_full_mode_requires_secret (fun _ => true) (fun _ _ => true)
    [("submit", JSVal.vUndefined)] (fun _ _ => .ok [])
    (fun _ _ => []) (fun _ _ _ => .ok [])
    [] [] [("submit", JSVal.vBool false)] (fun _ _ => [])
    rfl rfl rfl rfl

theorem applyClose_keepPending (idx lls sub : Nat) (a : String) (q : Nat)
    (h : ¬ lls < idx) :
    applyClose idx ⟨a, q, lls, sub, .pending⟩ = ⟨a, q, lls, sub, .pending⟩ := by
  unfold applyClose
  rw [if_neg]
  rintro ⟨-, hlt⟩
  exact h hlt

theorem applyClose_expire (idx lls sub : Nat) (a : String) (q : Nat)
    (h : lls < idx) :
    applyClose idx ⟨a, q, lls, sub, .pending⟩ = ⟨a, q, lls, sub, .expired⟩ := by
  unfold applyClose
  rw [if_pos ⟨rfl, h⟩]

theorem applyClose_keepExpired (idx lls sub : Nat) (a : String) (q : Nat) :
    applyClose idx ⟨a, q, lls, sub, .expired⟩ = ⟨a, q, lls, sub, .expired⟩ := by
  unfold applyClose
  rw [if_neg]
  rintro ⟨hp, -⟩
  nomatch hp

/-- C2: a transaction submitted at ledger `L` gets
`LastLedgerSequence = L + 3` (`LEDGER_OFFSET` is the constant 3); the
harness's `closeLedgers` delivers the 5 ledger closes `L+1 … L+5`, after
which the entry is expired and the surfaced pipeline result is the expiry
failure, while any prefix of fewer than 4 closes leaves it pending. -/
theorem C2_expiry_window (L : Nat) (acct : String) (seq : Nat) :
    LEDGER_OFFSET = 3
    ∧ (step (initState L) (.submit acct seq)).entries
        = [⟨acct, seq, L + 3, L, .pending⟩]
    ∧ (run (closeLedgers L) (step (initState L) (.submit acct seq))).entries
        = [⟨acct, seq, L + 3, L, .expired⟩]
    ∧ waiterResult ⟨acct, seq, L + 3, L, .expired⟩ = some .expiredFailure
    ∧ (∀ n, n < 4 →
        (run ((closeLedgers L).take n)
            (step (initState L) (.submit acct seq))).entries
          = [⟨acct, seq, L + 3, L, .pending⟩]) := by
  have hcl : closeLedgers L
      = [.ledgerClose (L+1), .ledgerClose (L+2), .ledgerClose (L+3),
         .ledgerClose (L+4), .ledgerClose (L+5)] := rfl
  refine ⟨rfl, rfl, ?_, rfl, ?_⟩
  · rw [hcl]
    simp only [run, List.foldl_cons, List.foldl_nil, step, List.map_cons,
      List.map_nil, List.nil_append, initState, LEDGER_OFFSET]
    rw [applyClose_keepPending (L+1) (L+3) L acct seq (by omega),
      applyClose_keepPending (L+2) (L+3) L acct seq (by omega),
      applyClose_keepPending (L+3) (L+3) L acct seq (by omega),
      applyClose_expire (L+4) (L+3) L acct seq (by omega),
      applyClose_keepExpired (L+5) (L+3) L acct seq]
  · intro n hn
    interval_cases n
    · rfl
    · rw [hcl]
      simp only [List.take_succ_cons, List.take_zero, run, List.foldl_cons,
        List.foldl_nil, step, List.map_cons, List.map_nil, List.nil_append,
        initState, LEDGER_OFFSET]
      rw [applyClose_keepPending (L+1) (L+3) L acct seq (by omega)]
    · rw [hcl]
      simp only [List.take_succ_cons, List.take_zero, run, List.foldl_cons,
        List.foldl_nil, step, List.map_cons, List.map_nil, List.nil_append,
        initState, LEDGER_OFFSET]
      rw [applyClose_keepPending (L+1) (L+3) L acct seq (by omega),
        applyClose_keepPending (L+2) (L+3) L acct seq (by omega)]
    · rw [hcl]
      simp only [List.take_succ_cons, List.take_zero, run, List.foldl_cons,
        List.foldl_nil, step, List.map_cons, List.map_nil, List.nil_append,
        initState, LEDGER_OFFSET]
      rw [applyClose_keepPending (L+1) (L+3) L acct seq (by omega),
        applyClose_keepPending (L+2) (L+3) L acct seq (by omega),
        applyClose_keepPending (L+3) (L+3) L acct seq (by omega)]

theorem C2_expiry_window_witness :
    LEDGER_OFFSET = 3
    ∧ (run (closeLedgers 0) (step (initState 0) (.submit "a" 7))).entries
        = [⟨"a", 7, 3, 0, .expired⟩]
    ∧ (run ((closeLedgers 0).take 3)
        (step (initState 0) (.submit "a" 7))).entries
        = [⟨"a", 7, 3, 0, .pending⟩] :=
  ⟨(C2_expiry_window 0 "a" 7).1,
   (C2_expiry_window 0 "a" 7).2.2.1,
   (C2_expiry_window 0 "a" 7).2.2.2.2 3 (by omega)⟩

/-- C3 (counterexample): the claimed biconditional
"status == pending iff submittedAtLedger ≤ currentLedger ≤
LastLedgerSequence" is false: an entry confirmed inside its validity
window has status succeeded while the window condition still holds.
Concretely, submit at ledger 1 and confirm at ledger 1: the entry is
⟨account, 1, 4, 1, succeeded⟩ with 1 ≤ 1 ≤ 4 but status ≠ pending. -/
theorem C3_pending_window_counterexample :
    ¬ (∀ s : TrackerState, Reachable s → ∀ e ∈ s.entries,
        (e.status = .pending ↔
          (e.submittedAtLedger ≤ s.currentLedger
            ∧ s.currentLedger ≤ e.lastLedgerSequence))) := by
  intro hclaim
  have hr : Reachable (run [.submit "rA" 1, .confirm "rA" 1] (initState 1)) :=
    ⟨1, [.submit "rA" 1, .confirm "rA" 1], rfl⟩
  have hm : (⟨"rA", 1, 4, 1, .succeeded⟩ : PendingEntry)
      ∈ (run [.submit "rA" 1, .confirm "rA" 1] (initState 1)).entries := by
    decide
  have hiff := hclaim _ hr _ hm
  have hpend := hiff.mpr (by decide)
  nomatch hpend

/-- C3 (amended): for every reachable tracker state, an entry has status
pending iff it sits inside its validity window and has not been confirmed
(status ≠ succeeded); and an expired entry never changes again under any
further events — a late confirmation included. -/
theorem C3_pending_window_amended (s : TrackerState) (h : Reachable s) :
    (∀ e ∈ s.entries,
      (e.status = .pending ↔
        (e.submittedAtLedger ≤ s.currentLedger
          ∧ s.currentLedger ≤ e.lastLedgerSequence
          ∧ e.status ≠ .succeeded)))
    ∧ (∀ (evs : List TrackerEvent) (i : Nat) (e : PendingEntry),
        s.entries[i]? = some e → e.status = .expired →
        ∃ e' : PendingEntry,
          (run evs s).entries[i]? = some e' ∧ e'.status = .expired) := by
  have hinv := trackerInv_reachable s h
  constructor
  · intro e he
    have h0 := hinv e he
    constructor
    · intro hp
      have hw := h0.1 hp
      refine ⟨hw.1, hw.2, ?_⟩
      intro hq
      rw [hp] at hq
      nomatch hq
    · rintro ⟨h1, h2, h3⟩
      cases hst : e.status with
      | pending => rfl
      | succeeded => exact absurd hst h3
      | expired =>
        have := h0.2 hst
        omega
  · intro evs i e hi hx
    exact expired_stays_run evs s i e hi hx

theorem C3_pending_window_amended_witness :
    (∀ e ∈ (run [.submit "wA" 2, .ledgerClose 9] (initState 1)).entries,
      (e.status = .pending ↔
        (e.submittedAtLedger
            ≤ (run [.submit "wA" 2, .ledgerClose 9] (initState 1)).currentLedger
          ∧ (run [.submit "wA" 2, .ledgerClose 9] (initState 1)).currentLedger
            ≤ e.lastLedgerSequence
          ∧ e.status ≠ .succeeded)))
    ∧ (∀ (evs : List TrackerEvent) (i : Nat) (e : PendingEntry),
        (run [.submit "wA" 2, .ledgerClose 9] (initState 1)).entries[i]? = some e →
        e.status = .expired →
        ∃ e' : PendingEntry,
          (run evs (run [.submit "wA" 2, .ledgerClose 9] (initState 1))).entries[i]?
            = some e' ∧ e'.status = .expired) :=
  C3_pending_window_amended (run [.submit "wA" 2, .ledgerClose 9] (initState 1))
    ⟨1, [.submit "wA" 2, .ledgerClose 9], rfl⟩

/-- C9: with the deterministic entropy source installed by
`withDeterministicPRNG`, two invocations of the signer on the same
transaction and secret produce byte-identical signed blobs, for every
signature algorithm; moreover the original entropy source is restored
afterwards. (With the real, stateful source the two draws might differ;
the mock's output does not depend on invocation history.) -/
theorem C9_sign_deterministic (sigAlg : JSVal → JSVal → Nat → JSObj)
    (txJSON secret : JSVal) (g : SjclGlobal) :
    ((withDeterministicPRNG (signTwice sigAlg txJSON secret) g).1.1
      = (withDeterministicPRNG (signTwice sigAlg txJSON secret) g).1.2)
    ∧ (withDeterministicPRNG (signTwice sigAlg txJSON secret) g).2 = g := by
  constructor
  · rfl
  · rfl
